import Mathlib

/-!
Verification of the pai-do Telegram bridge (Go) session layer.

Strings are embedded as `List Char` (`Str`), which the kernel evaluates
directly; Go string functions used by the bridge (`strings.Split`,
`strings.Join`, `strings.HasPrefix`, `strings.Contains`, `strings.TrimSpace`,
`path/filepath.Clean/Join/Abs`) are translated below.  Machine integers
(`int64` millisecond timestamps) are modelled as `Int`: no quantity in the
verified code approaches overflow, so no wrap-around is modelled.
-/

set_option autoImplicit false

namespace PaiDo

abbrev Str := List Char

/-- Character class of Go `regexp`'s `\s` (Perl class): space, tab, newline,
form feed, carriage return. -/
def regexSpace (c : Char) : Bool :=
  c = ' ' || c = '\t' || c = '\n' || c = '\x0c' || c = '\r'

/-- Character class of Go `regexp`'s `\w`: `[0-9A-Za-z_]`. -/
def regexWord (c : Char) : Bool :=
  ('0' ≤ c && c ≤ '9') || ('a' ≤ c && c ≤ 'z') || ('A' ≤ c && c ≤ 'Z') || c = '_'

/-- `unicode.IsSpace` as used by `strings.TrimSpace`, restricted to the ASCII
whitespace that can occur here. -/
def goIsSpace (c : Char) : Bool :=
  c = ' ' || c = '\t' || c = '\n' || c = '\x0b' || c = '\x0c' || c = '\r'

/-- Go `strings.TrimSpace`. -/
def goTrimSpace (s : Str) : Str :=
  ((s.dropWhile goIsSpace).reverse.dropWhile goIsSpace).reverse

/-- Go `strings.Contains`. -/
def containsSub (h n : Str) : Bool :=
  h.tails.any (fun t => n.isPrefixOf t)

/-- Go `strings.Split(text, "\n")`. -/
def splitLines (t : Str) : List Str := t.splitOn '\n'

/-- Go `strings.Join(lines, "\n")`. -/
def joinLines (ls : List Str) : Str := List.intercalate ['\n'] ls

/-- One step of Go `path/filepath.Clean`'s element processing: `acc` holds the
output elements in reverse.  Empty and `.` elements are dropped; `..` pops the
previous element unless the path is rooted and the buffer is empty (drop) or
the buffer already ends in `..` on a relative path (keep). -/
def cleanStep (rooted : Bool) (acc : List Str) (c : Str) : List Str :=
  if c = [] || c = ['.'] then acc
  else if c = ['.', '.'] then
    match acc with
    | [] => if rooted then [] else [c]
    | a :: as => if a = ['.', '.'] then c :: a :: as else as
  else c :: acc

/-- Go `path/filepath.Clean` for slash-separated paths. -/
def goClean (p : Str) : Str :=
  if p = [] then ['.']
  else
    let rooted := p.head? = some '/'
    let comps := ((p.splitOn '/').foldl (cleanStep rooted) []).reverse
    let body := List.intercalate ['/'] comps
    if rooted then '/' :: body
    else if comps = [] then ['.'] else body

/-- Go `path/filepath.Join` for two elements: empty elements are skipped, the
rest joined with `/` and cleaned. -/
def goJoin (a b : Str) : Str :=
  if a = [] && b = [] then []
  else if a = [] then goClean b
  else if b = [] then goClean a
  else goClean (a ++ '/' :: b)

/-- Go `path/filepath.Abs` relative to working directory `cwd`
(absolute path: `Clean`; otherwise `Join(cwd, p)`). -/
def goAbs (cwd p : Str) : Str :=
  if p.head? = some '/' then goClean p else goJoin cwd p

/-- Go `os.Getenv` over an environment modelled as a list of `NAME=value`
strings (first occurrence wins, empty string when unset). -/
def getenvStr (environ : List Str) (name : Str) : Str :=
  match environ.find? (fun e => (name ++ ['=']).isPrefixOf e) with
  | some e => e.drop (name.length + 1)
  | none => []

-- Sanity checks for the path functions against Go's documented behavior.

/-! ## Data model (src/bridge-go/session.go) -/

/-- `Session` (session.go): the persistent record.  Timestamps are
millisecond Unix times (`int64`, modelled as `Int`). -/
structure Session where
  id : Str
  userID : Str
  chatID : Str
  workDir : Str
  model : Str
  createdAt : Int
  lastActivityAt : Int
  messageCount : Nat
  status : Str
  claudeSessionID : Str
deriving DecidableEq, Repr

/-- `Attachment` (session.go): `type` is "image", "document" or "text-file". -/
structure Attachment where
  type : Str
  base64 : Str
  mimeType : Str
  fileName : Str
  textContent : Str
deriving DecidableEq, Repr

/-- `MessageResult` (session.go). -/
structure MessageResult where
  text : Str
  createdFiles : List Str
deriving DecidableEq, Repr

/-- The `Sessions` part of `Config` (config.go). -/
structure SessionsConfig where
  timeoutMinutes : Int
  maxConcurrent : Nat
  defaultWorkDir : Str
  defaultModel : Str
  resetHour : Int
deriving DecidableEq, Repr

def activeStatus : Str := "active".data

def busyStatus : Str := "busy".data

def idleStatus : Str := "idle".data

def textFileType : Str := "text-file".data

def imageType : Str := "image".data

def documentType : Str := "document".data

/-! ## Environment allow-list (session.go, `claudeEnvAllowlist` /
`buildClaudeEnv`, lines 686-735) -/

/-- `claudeEnvAllowlist` (session.go): environment entry prefixes forwarded to
the Claude subprocess. -/
def claudeEnvAllowlist : List Str :=
  ["PATH=".data, "LANG=".data, "LC_".data, "TERM=".data, "SHELL=".data,
   "USER=".data, "LOGNAME=".data, "XDG_".data, "PAI_DIR=".data,
   "CLAUDE_PATH=".data, "CLAUDE_USER_HOME=".data, "CLAUDE_RUN_AS_USER=".data,
   "CLAUDE_CODE_OAUTH_TOKEN=".data, "CLAUDE_CODE_EXPERIMENTAL_".data,
   "GH_TOKEN=".data, "DO_TOKEN=".data, "GOOGLE_API_KEY=".data,
   "GOOGLE_APPLICATION_CREDENTIALS=".data]

/-- The inner loop of `buildClaudeEnv`: an entry is kept iff some allow-list
prefix matches it. -/
def matchesAllowlist (e : Str) : Bool :=
  claudeEnvAllowlist.any (fun p => p.isPrefixOf e)

/-- The `HOME` value synthesized for the reduced-privilege user:
`$CLAUDE_USER_HOME`, defaulting to `/home/pai`. -/
def claudeHomeOf (environ : List Str) : Str :=
  let h := getenvStr environ "CLAUDE_USER_HOME".data
  if h = [] then "/home/pai".data else h

/-- `buildClaudeEnv` (session.go): filter the parent environment by the
allow-list, then append a synthesized `HOME` (the reduced-privilege user's
home when running under a credential, otherwise the parent `HOME` if set). -/
def buildClaudeEnv (asUnprivilegedUser : Bool) (environ : List Str) : List Str :=
  let env := environ.filter matchesAllowlist
  if asUnprivilegedUser then
    env ++ ["HOME=".data ++ claudeHomeOf environ]
  else
    let home := getenvStr environ "HOME".data
    if home = [] then env else env ++ ["HOME=".data ++ home]

/-! ## SEND directive extraction and file delivery
(src/bridge-go/bot.go `extractSendDirectives` and `handleMessage`) -/

/-- The Go regexp `^SEND:\s*(.+)$` applied to one line (the caller splits on
newlines first, so the line contains no `'\n'`): after the literal `SEND:`,
greedy `\s*` backtracks just enough to leave at least one character for the
capture `(.+)`. -/
def sendDirectiveCapture (line : Str) : Option Str :=
  if ("SEND:".data).isPrefixOf line then
    let rest := line.drop 5
    if rest = [] then none
    else
      let t := rest.dropWhile regexSpace
      some (if t = [] then rest.drop (rest.length - 1) else t)
  else none

/-- `~/`-expansion of a captured path
(bot.go: `strings.HasPrefix(p, "~/")` then `filepath.Join(home, p[2:])`). -/
def tildeExpand (home p : Str) : Str :=
  if ("~/".data).isPrefixOf p then goJoin home (p.drop 2) else p

/-- The per-line loop of `extractSendDirectives` (bot.go lines 465-484):
matching lines yield a trimmed, `~/`-expanded path; all other lines are kept
for the outgoing text. -/
def extractSendLoop (home : Str) : List Str → List Str × List Str
  | [] => ([], [])
  | l :: ls =>
    let r := extractSendLoop home ls
    match sendDirectiveCapture l with
    | some c => (r.1, tildeExpand home (goTrimSpace c) :: r.2)
    | none => (l :: r.1, r.2)

/-- `extractSendDirectives` (bot.go): split on newlines, strip `SEND:` lines,
return the cleaned text and the captured paths.  The invoking user's home
directory (`os.UserHomeDir`) is passed as a parameter. -/
def extractSendDirectives (home text : Str) : Str × List Str :=
  let r := extractSendLoop home (splitLines text)
  (joinLines r.1, r.2)

/-- Allowed root directories for SEND delivery (spec §4.4). -/
def allowedSendRoots : List Str :=
  ["/mnt/pai-data/projects".data, "/mnt/pai-data/memory".data,
   "/tmp".data, "/home/pai".data]

/-- Denied substrings for SEND delivery (spec §4.4). -/
def deniedSendSubstrings : List Str :=
  ["secrets".data, ".ssh".data, ".env".data, "credentials".data,
   "token".data, ".key".data, ".pem".data]

/-- Modelled from the spec: `isSafeSendPath` is absent from src/bridge-go
(only its table test `TestIsSafeSendPath` in bot_test.go is present).  Spec
§4.4: the path must lie under one of the allowed roots (a near-miss prefix
such as `/mnt/pai-data/project-other` does not count, so "under" means equal
to the root or extending it past a `/`), and must not contain any denied
substring. -/
def isSafeSendPath (p : Str) : Bool :=
  allowedSendRoots.any (fun r => p = r || (r ++ ['/']).isPrefixOf p) &&
  deniedSendSubstrings.all (fun d => !(containsSub p d))

/-- `appendUnique` (session.go): append only if not already present. -/
def appendUnique (slice : List Str) (item : Str) : List Str :=
  if item ∈ slice then slice else slice ++ [item]

/-- Order-preserving deduplication, as `handleMessage`'s `seen` map does. -/
def dedupList (l : List Str) : List Str := l.foldl appendUnique []

/-- The SEND file-delivery pipeline of `handleMessage` (bot.go lines 347-391):
extract paths, resolve to absolute paths, apply the (spec-modelled) safety
filter — paths failing it are silently dropped — then deduplicate.  The
final `os.Stat` existence check before the actual upload is I/O and is not
part of the path computation. -/
def deliveredSendFiles (home cwd text : Str) : List Str :=
  dedupList ((((extractSendDirectives home text).2).map (goAbs cwd)).filter
    isSafeSendPath)

/-! ## VOICE directive extraction -/

/-- Modelled from the spec: the Go regexp
`^\s*(?:VOICE|🗣️\s+\w+)\s*:\s*(.+)$` applied to one line.  The
implementation (`extractVoiceDirective` in the current bot.go) is absent
from src — only its test `TestExtractVoiceDirective` in bot_test.go is
present; src's older format.go recognizes just the `🗣️ PAI|Ghost:` form.
After optional leading whitespace, either the literal `VOICE` or the speaker
emoji (two scalars, U+1F5E3 U+FE0F) followed by whitespace and a `\w+` name;
then optional whitespace, a colon, and the utterance capture (greedy `\s*`
backtracking to leave at least one character for `(.+)`). -/
def voiceDirectiveCapture (line : Str) : Option Str :=
  let l1 := line.dropWhile regexSpace
  let afterGroup : Option Str :=
    if ("VOICE".data).isPrefixOf l1 then some (l1.drop 5)
    else if ("🗣️".data).isPrefixOf l1 then
      match l1.drop 2 with
      | [] => none
      | c :: r =>
        if regexSpace c then
          match r.dropWhile regexSpace with
          | [] => none
          | d :: r2 => if regexWord d then some (r2.dropWhile regexWord) else none
        else none
    else none
  match afterGroup with
  | none => none
  | some l2 =>
    match l2.dropWhile regexSpace with
    | ':' :: l4 =>
      if l4 = [] then none
      else
        let t := l4.dropWhile regexSpace
        some (if t = [] then l4.drop (l4.length - 1) else t)
    | _ => none

/-- Modelled from the spec: `extractVoiceDirective` (absent from src, tested
by `TestExtractVoiceDirective` in bot_test.go).  Every line matching the
voice regexp is stripped from the outgoing text; only the first match in the
response is recognized as the utterance (trimmed, per the test vectors). -/
def extractVoiceDirective (text : Str) : Str × Str :=
  let ls := splitLines text
  (joinLines (ls.filter (fun l => (voiceDirectiveCapture l).isNone)),
   match (ls.filterMap voiceDirectiveCapture).head? with
   | some c => goTrimSpace c
   | none => [])

/-! ## Follow-up queue (absent from src session.go; tested by
TestQueueDepthCap / TestQueueDepthCap_Value in session_test.go) -/

/-- Queue capacity; `TestQueueDepthCap_Value` pins it to 20. -/
def maxPendingMessages : Nat := 20

/-- A queued follow-up: text plus optional attachment. -/
structure PendingMessage where
  text : Str
  attachment : Option Attachment
deriving DecidableEq, Repr

inductive EnqueueOutcome
  | queued (depth : Nat)
  | queueFull
deriving DecidableEq, Repr

/-- Modelled from the spec: the enqueue operation of the follow-up queue is
absent from src session.go (only its tests are present).  Spec §4.3: if the
queue length is at least the cap, fail with queue-full leaving the queue
unchanged; otherwise append and return the new depth. -/
def enqueuePending (q : List PendingMessage) (m : PendingMessage) :
    List PendingMessage × EnqueueOutcome :=
  if maxPendingMessages ≤ q.length then (q, .queueFull)
  else (q ++ [m], .queued (q.length + 1))

/-- Sequentially enqueue a list of messages, keeping the queue states. -/
def enqueueAll (q : List PendingMessage) (ms : List PendingMessage) :
    List PendingMessage :=
  ms.foldl (fun q m => (enqueuePending q m).1) q

def pendingMessageEx : PendingMessage := ⟨"follow-up".data, none⟩

/-! ## Snapshot persistence (session.go `loadFromDisk` / `saveToDisk`,
lines 85-119) -/

/-- The JSON document written by `saveToDisk`: all `Session` fields are
serialized (the `omitempty` on `claudeSessionId` round-trips the empty string
unchanged). -/
structure StoredSession where
  id : Str
  userID : Str
  chatID : Str
  workDir : Str
  model : Str
  createdAt : Int
  lastActivityAt : Int
  messageCount : Nat
  status : Str
  claudeSessionID : Str
deriving DecidableEq, Repr

/-- JSON marshalling of one session (field-by-field). -/
def marshalSession (s : Session) : StoredSession :=
  ⟨s.id, s.userID, s.chatID, s.workDir, s.model, s.createdAt,
   s.lastActivityAt, s.messageCount, s.status, s.claudeSessionID⟩

/-- JSON unmarshalling of one stored session (field-by-field). -/
def unmarshalSession (d : StoredSession) : Session :=
  ⟨d.id, d.userID, d.chatID, d.workDir, d.model, d.createdAt,
   d.lastActivityAt, d.messageCount, d.status, d.claudeSessionID⟩

/-- `saveToDisk` (session.go): marshal the session array. -/
def saveToDisk (sessions : List Session) : List StoredSession :=
  sessions.map marshalSession

/-- Go map assignment `m[k] = v`, modelled on an association list. -/
def mapInsert (m : List (Str × Session)) (k : Str) (v : Session) :
    List (Str × Session) :=
  m.filter (fun e => !(e.1 == k)) ++ [(k, v)]

/-- Go map lookup `m[k]`. -/
def mapLookup (m : List (Str × Session)) (k : Str) : Option Session :=
  (m.find? (fun e => e.1 == k)).map (fun e => e.2)

/-- `loadFromDisk` (session.go): unmarshal the array and key the registry by
`UserID`, coercing every loaded status to `active`. -/
def loadFromDisk (file : List StoredSession) : List (Str × Session) :=
  file.foldl (fun m d =>
    mapInsert m (unmarshalSession d).userID
      { unmarshalSession d with status := activeStatus }) []

def setActiveStatus (s : Session) : Session := { s with status := activeStatus }

def sessionEx1 : Session :=
  ⟨"sid-0001".data, "u1".data, "u1".data, "/mnt/pai-data/projects".data,
   "claude-sonnet".data, 1000, 2000, 3, busyStatus, "conv-9".data⟩

def sessionEx2 : Session :=
  ⟨"sid-0002".data, "u2".data, "u2".data, "/tmp".data,
   "claude-sonnet".data, 1500, 2500, 0, activeStatus, []⟩

/-! ## Stale sweeper and teardown flushes
(session.go `KillSession`, `FlushAll`, `CleanStale`) -/

/-- The `staleSession` triple (session.go): arguments of a
`memory.FlushSession` call. -/
structure FlushCall where
  userID : Str
  sessionID : Str
  model : Str
deriving DecidableEq, Repr

def mkFlushCall (s : Session) : FlushCall := ⟨s.userID, s.id, s.model⟩

/-- One content part of the stream-JSON stdin message (session.go lines
438-486): a base64 media part or a text part. -/
inductive ContentPart
  | media (kind mediaType dataB64 : Str)
  | textPart (t : Str)
deriving DecidableEq, Repr

/-- Observable side effects of the session layer, in program order.
Process-cancellation bookkeeping (the `procs` map) is not modelled: no claim
refers to it. -/
inductive Effect
  | logTurn (userID sessionID role text : Str)
  | saveToDisk
  | stdinWrite (parts : List ContentPart)
  | flush (c : FlushCall)
deriving DecidableEq, Repr

/-- The daily-reset check of `CleanStale` (session.go lines 242-247):
`reset_hour ≥ 0` and the current hour (in the timezone resolved at startup,
UTC when `time.LoadLocation` failed) equals it. -/
def dailyResetActive (resetHour : Int) (currentHour : Nat) : Bool :=
  decide (0 ≤ resetHour) && decide ((currentHour : Int) = resetHour)

/-- The per-session decision of `CleanStale` (session.go lines 251-266):
busy sessions are skipped; otherwise clean when idle time exceeds the
configured timeout, or the daily-reset window is active and idle time
exceeds five minutes. -/
def shouldCleanStale (cfg : SessionsConfig) (now : Int) (currentHour : Nat)
    (s : Session) : Bool :=
  if s.status == busyStatus then false
  else
    decide (cfg.timeoutMinutes * 60000 < now - s.lastActivityAt) ||
      (dailyResetActive cfg.resetHour currentHour &&
        decide (5 * 60000 < now - s.lastActivityAt))

structure CleanOutcome where
  remaining : List Session
  cleanedCount : Nat
  toFlush : List FlushCall
  snapshotWritten : Bool
  runRetention : Bool
deriving DecidableEq, Repr

/-- `CleanStale` (session.go lines 234-302): remove every session the
decision selects, count them, collect asynchronous flush calls for those with
messages, snapshot when anything was cleaned, and run the retention pass when
the daily-reset window is active. -/
def cleanStale (cfg : SessionsConfig) (now : Int) (currentHour : Nat)
    (sessions : List Session) : CleanOutcome :=
  let cleaned := sessions.filter (shouldCleanStale cfg now currentHour)
  { remaining := sessions.filter (fun s => !(shouldCleanStale cfg now currentHour s)),
    cleanedCount := cleaned.length,
    toFlush := (cleaned.filter (fun s => decide (0 < s.messageCount))).map mkFlushCall,
    snapshotWritten := decide (0 < cleaned.length),
    runRetention := dailyResetActive cfg.resetHour currentHour }

/-- `KillSession` (session.go lines 160-188): when the user has a session,
cancel any in-flight invocation, remove it, snapshot, and then — still before
returning to the caller — flush it synchronously when it has messages.  The
returned effect list is the synchronous trace, in program order. -/
def killSession (sessions : List Session) (userID : Str) :
    List Session × List Effect × Bool :=
  match sessions.find? (fun t => t.userID == userID) with
  | none => (sessions, [], false)
  | some s =>
    (sessions.filter (fun t => !(t.userID == userID)),
     Effect.saveToDisk ::
       (if 0 < s.messageCount then [Effect.flush (mkFlushCall s)] else []),
     true)

/-- `FlushAll` (session.go lines 209-232): synchronously flush every session
with messages. -/
def flushAll (sessions : List Session) : List FlushCall :=
  (sessions.filter (fun s => decide (0 < s.messageCount))).map mkFlushCall

def sweepCfgEx : SessionsConfig :=
  ⟨240, 2, "/mnt/pai-data/projects".data, "claude-sonnet".data, 4⟩

/-- Session idle 6 minutes at `now = 10^7` ms. -/
def sessionIdle6 : Session :=
  ⟨"sid-0006".data, "u6".data, "u6".data, "/tmp".data, "m".data,
   0, 10000000 - 360000, 2, activeStatus, []⟩

/-- Session idle 4 minutes at `now = 10^7` ms. -/
def sessionIdle4 : Session :=
  ⟨"sid-0004".data, "u4".data, "u4".data, "/tmp".data, "m".data,
   0, 10000000 - 240000, 2, activeStatus, []⟩

/-! ## The Runner turn (session.go `SendMessage`, lines 322-598)

External interactions of one turn — pipe creation, subprocess start, the
parsed stdout event stream, the stderr body and the exit status — are
supplied by a `TurnWorld` oracle; everything else follows the source control
flow.  Binary/claude-path resolution (`CLAUDE_PATH`, `EvalSymlinks`), the
argument vector and the `procs` cancel-handle map are not modelled: no claim
refers to them. -/

/-- `bridgeContext` (session.go lines 304-320), prepended on first turns.
The speaker-emoji bytes are reproduced as they appear in the source file. -/
def bridgeContext : Str :=
  ("[TELEGRAM BRIDGE CONTEXT]\nYou are responding through a Telegram chat bridge. The user is on their phone.\n- Keep responses concise and mobile-friendly.\n- When the user asks you to send, fetch, grab, pull, or share a FILE, output its absolute path on its own line as: SEND: /absolute/path/to/file.ext\n- You can output multiple SEND: lines for multiple files.\n- The bridge will automatically deliver SEND: files to the user's Telegram chat.\n- Use SEND: only when the user wants to RECEIVE a file, not when you're just reading files for your own understanding.\n- To speak a response as a voice note, use either format on its own line:\n  VOICE: Text to be spoken aloud\n  ðŸ—£ï¸\u008f PAI: Text to be spoken aloud\n- Both forms trigger TTS synthesis. The ðŸ—£ï¸\u008f PAI: form is used by the PAI Algorithm.\n- Only one voice line per response. Keep voice text concise (1-3 sentences).\n- The bridge will synthesize speech and deliver it as a Telegram voice message.\n- For Obsidian notes: wiki-links like [[filename]] and ![[attachment]] resolve relative to the vault root. Follow links to find referenced files.\n[END BRIDGE CONTEXT]\n\n").data

/-- Error values returned by `SendMessage`; each constructor stands for the
corresponding `fmt.Errorf` in the source. -/
inductive SendErr
  | stillBusy
  | maxConcurrent
  | stdinPipeFailed
  | stdoutPipeFailed
  | stderrPipeFailed
  | startFailed
  | sessionExpired
  | claudeExited (stderrBody : Str)
deriving DecidableEq, Repr

/-- One content block of an `assistant` stream event.  For `tool_use` blocks,
`filePath` models `input.file_path` (the Write tool) and `commandFiles` the
paths the two shell regexes extract from `input.command` (the Bash tool); the
regex scan itself is not claim-relevant and is part of the event model. -/
inductive EventBlock
  | text (t : Str)
  | toolUse (name : Str) (filePath : Option Str) (commandFiles : List Str)
  | other
deriving DecidableEq, Repr

/-- One parsed line of the stream-JSON stdout.  `other` covers unknown record
kinds, empty lines and invalid JSON, all of which the loop skips. -/
inductive StreamEvent
  | system (sessionId : Option Str)
  | assistant (content : Option (List EventBlock))
  | other
deriving DecidableEq, Repr

/-- `extractTextFromEvent` (session.go lines 600-628): concatenate the `text`
blocks of an `assistant` event. -/
def extractTextFromEvent : StreamEvent → Str
  | .assistant (some blocks) =>
    blocks.foldl (fun acc b =>
      match b with
      | .text t => acc ++ t
      | _ => acc) []
  | _ => []

/-- `extractCreatedFilesFromEvent` (session.go lines 635-681): file paths
produced by `Write` and `Bash` tool-use blocks. -/
def extractCreatedFilesFromEvent : StreamEvent → List Str
  | .assistant (some blocks) =>
    blocks.foldl (fun acc b =>
      match b with
      | .toolUse name filePath commandFiles =>
        let acc := if name = "Write".data then
            (match filePath with
             | some f => acc ++ [f]
             | none => acc)
          else acc
        if name = "Bash".data then acc ++ commandFiles else acc
      | _ => acc) []
  | _ => []

/-- State of the stdout-scanning loop: the local `claudeSessionID` variable,
whether a conversation id was captured this turn (triggering a registry
update and snapshot), the response builder and the created-file list. -/
structure ProcState where
  sid : Str
  captured : Bool
  resp : Str
  files : List Str
deriving DecidableEq, Repr

/-- The stdout-scanning loop (session.go lines 517-550): capture a `system`
conversation id once (only while the local id is empty), aggregate text,
accumulate created files without duplicates. -/
def processEvents (events : List StreamEvent) (csid0 : Str) : ProcState :=
  events.foldl (fun st e =>
    let st :=
      match e with
      | .system (some sid) =>
        if sid ≠ [] ∧ st.sid = [] then { st with sid := sid, captured := true }
        else st
      | _ => st
    let st := { st with resp := st.resp ++ extractTextFromEvent e }
    { st with files := (extractCreatedFilesFromEvent e).foldl appendUnique st.files })
    ⟨csid0, false, [], []⟩

/-- The stdin-writer goroutine's JSON content array (session.go lines
438-486): the base64 media part for an image or document, then a text part
carrying the composed message text — substituted by a kind-specific default
prompt when that text is empty. -/
def buildStdinParts (messageText : Str) (a : Attachment) : List ContentPart :=
  let content : List ContentPart :=
    if a.type = imageType then [ContentPart.media imageType a.mimeType a.base64]
    else if a.type = documentType then
      [ContentPart.media documentType a.mimeType a.base64]
    else []
  let defaultPrompt :=
    if messageText = [] then
      if a.type = imageType then "What is in this image?".data
      else "Please analyze this document.".data
    else messageText
  content ++ [ContentPart.textPart defaultPrompt]

/-- `useStreamJSON` (session.go line 395): a binary attachment is present. -/
def useStreamJSONOf : Option Attachment → Bool
  | some a => !(a.type == textFileType)
  | none => false

/-- The stdin-writer effect, when stream-JSON input is used. -/
def stdinWriteEffects (messageText : Str) : Option Attachment → List Effect
  | some a =>
    if a.type == textFileType then []
    else [Effect.stdinWrite (buildStdinParts messageText a)]
  | none => []

/-- Text-file inlining (session.go lines 386-392). -/
def inlineTextFile (messageText : Str) : Option Attachment → Str
  | some a =>
    if a.type == textFileType && !(a.textContent == []) then
      messageText ++ "\n\n--- ".data ++
        (if a.fileName = [] then "document".data else a.fileName) ++
        " ---\n".data ++ a.textContent ++ "\n--- end ---".data
    else messageText
  | none => messageText

/-- Go map-entry mutation `sm.sessions[userID].field = v` under the registry
lock, on the list model. -/
def updateSession (sessions : List Session) (userID : Str)
    (f : Session → Session) : List Session :=
  sessions.map (fun t => if t.userID == userID then f t else t)

deriving instance DecidableEq for Except

/-- Final state of one `SendMessage` call: the registry, the effect trace in
program order, and the returned value. -/
structure SendResult where
  sessions : List Session
  effects : List Effect
  result : Except SendErr MessageResult
deriving DecidableEq, Repr

/-- External outcomes of one turn. -/
structure TurnWorld where
  stdinPipeOk : Bool
  stdoutPipeOk : Bool
  stderrPipeOk : Bool
  startOk : Bool
  events : List StreamEvent
  stderrText : Str
  exitNonZero : Bool
deriving DecidableEq, Repr

def cannotFindSessionSig : Str := "Could not find session".data

def roleUser : Str := "user".data

def roleAssistant : Str := "assistant".data

/-- The shared tail of `SendMessage` (session.go lines 589-597): log the
aggregated response if non-empty and return it with the created files. -/
def finishTurn (sessions3 : List Session) (effs : List Effect)
    (userID sid : Str) (pe : ProcState) : SendResult :=
  ⟨sessions3,
   effs ++ (if pe.resp = [] then [] else [Effect.logTurn userID sid roleAssistant pe.resp]),
   .ok ⟨pe.resp, pe.files⟩⟩

/-- The body of `SendMessage` after registry admission (session.go lines
355-597): flip the session to busy, compose the message text (bridge context
and memory context on first turns, text-file inlining), log the user turn,
set up pipes and start the subprocess — returning the corresponding error on
failure —, scan stdout, drain stderr, wait, flip the session back to active,
snapshot, and interpret the exit status. -/
def runTurn (recentContext dailyNotes : Str) (now : Int)
    (sessions : List Session) (s : Session) (userID text : Str)
    (att : Option Attachment) (w : TurnWorld) : SendResult :=
  let sessions1 := updateSession sessions userID (fun t =>
    { t with status := busyStatus, lastActivityAt := now,
             messageCount := t.messageCount + 1 })
  let csid := s.claudeSessionID
  let messageText :=
    if csid = [] then bridgeContext ++ recentContext ++ dailyNotes ++ text
    else text
  let messageText := inlineTextFile messageText att
  let hasResume : Bool := !(csid == [])
  let effs := [Effect.logTurn userID s.id roleUser text]
  if useStreamJSONOf att && !w.stdinPipeOk then
    ⟨sessions1, effs, .error .stdinPipeFailed⟩
  else
    let effs := effs ++ stdinWriteEffects messageText att
    if !w.stdoutPipeOk then ⟨sessions1, effs, .error .stdoutPipeFailed⟩
    else if !w.stderrPipeOk then ⟨sessions1, effs, .error .stderrPipeFailed⟩
    else if !w.startOk then ⟨sessions1, effs, .error .startFailed⟩
    else
      let pe := processEvents w.events csid
      let sessions2 :=
        if pe.captured then
          updateSession sessions1 userID (fun t => { t with claudeSessionID := pe.sid })
        else sessions1
      let effs := effs ++ (if pe.captured then [Effect.saveToDisk] else [])
      let sessions3 := updateSession sessions2 userID (fun t => { t with status := activeStatus })
      let effs := effs ++ [Effect.saveToDisk]
      if w.exitNonZero then
        if hasResume && containsSub w.stderrText cannotFindSessionSig then
          ⟨updateSession sessions3 userID (fun t => { t with claudeSessionID := [] }),
           effs ++ [Effect.saveToDisk], .error .sessionExpired⟩
        else if w.stderrText ≠ [] then
          ⟨sessions3, effs, .error (.claudeExited (goTrimSpace w.stderrText))⟩
        else finishTurn sessions3 effs userID s.id pe
      else finishTurn sessions3 effs userID s.id pe

/-- The session record created inside `SendMessage` (session.go lines
341-352); `ChatID` is set to the user id there. -/
def newSession (cfg : SessionsConfig) (newID userID : Str) (now : Int) : Session :=
  ⟨newID, userID, userID, cfg.defaultWorkDir, cfg.defaultModel, now, now, 0,
   activeStatus, []⟩

/-- `SendMessage` (session.go lines 322-598): reject when the session is
busy; when absent, enforce the concurrency cap and create the session; then
run the turn. -/
def sendMessage (cfg : SessionsConfig) (recentContext dailyNotes : Str)
    (newID : Str) (now : Int) (sessions : List Session) (userID text : Str)
    (att : Option Attachment) (w : TurnWorld) : SendResult :=
  match sessions.find? (fun t => t.userID == userID) with
  | some s =>
    if s.status == busyStatus then ⟨sessions, [], .error .stillBusy⟩
    else runTurn recentContext dailyNotes now sessions s userID text att w
  | none =>
    if cfg.maxConcurrent ≤ (sessions.filter (fun t => !(t.status == idleStatus))).length then
      ⟨sessions, [], .error .maxConcurrent⟩
    else
      let s := newSession cfg newID userID now
      runTurn recentContext dailyNotes now (sessions ++ [s]) s userID text att w

def promptAttachmentEx : Attachment :=
  ⟨imageType, "QUFBQQ==".data, "image/png".data, [], []⟩

def expiredWorld : TurnWorld :=
  ⟨true, true, true, true, [], "Error: Could not find session: abc".data, true⟩

def resumedSession : Session :=
  ⟨"sid-0005".data, "u5".data, "u5".data, "/tmp".data, "m".data, 0, 0, 1,
   activeStatus, "old-conv".data⟩

def stuckWorld : TurnWorld := ⟨false, true, true, true, [], [], false⟩

def stuckAttachment : Attachment :=
  ⟨imageType, "QUFB".data, "image/png".data, [], []⟩

def stuckSession : Session :=
  ⟨"sid-leak".data, "u9".data, "u9".data, "/tmp".data, "m".data, 0, 0, 1,
   activeStatus, "conv".data⟩

/-! ## Lemmas and claim theorems -/

theorem goClean_examples :
    goClean "/a/b/../c".data = "/a/c".data ∧
    goClean "a//b/./d".data = "a/b/d".data ∧
    goClean "/../x".data = "/x".data ∧
    goClean "../x".data = "../x".data ∧
    goClean "/".data = "/".data ∧
    goClean [] = ".".data := by decide

theorem goJoin_examples :
    goJoin "/home/pai".data "docs/file.pdf".data = "/home/pai/docs/file.pdf".data ∧
    goJoin [] "x".data = "x".data ∧
    goAbs "/work".data "/tmp/a.png".data = "/tmp/a.png".data ∧
    goAbs "/work".data "a.png".data = "/work/a.png".data := by decide

/-! Helper lemmas about list prefixes, to show that a fixed entry can never
match the allow-list whatever its value part is. -/

theorem take_eq_of_prefix_append {p a v : Str} {n : Nat} (hp : n ≤ p.length)
    (ha : n ≤ a.length) (h : p <+: (a ++ v)) : p.take n = a.take n := by
  obtain ⟨t, ht⟩ := h
  have h2 := congrArg (List.take n) ht
  rwa [List.take_append_of_le_length hp, List.take_append_of_le_length ha] at h2

theorem not_prefix_append_of_take_ne {p a : Str} (v : Str)
    (h : p.take (min p.length a.length) ≠ a.take (min p.length a.length)) :
    ¬ p <+: (a ++ v) := fun hpre =>
  h (take_eq_of_prefix_append (Nat.min_le_left _ _) (Nat.min_le_right _ _) hpre)

theorem isPrefixOf_append_eq_false_of_take_ne {p a : Str} (v : Str)
    (h : p.take (min p.length a.length) ≠ a.take (min p.length a.length)) :
    p.isPrefixOf (a ++ v) = false := by
  rw [Bool.eq_false_iff]
  intro hb
  exact not_prefix_append_of_take_ne v h (List.isPrefixOf_iff_prefix.mp hb)

theorem telegram_token_not_allowlisted (v : Str) :
    matchesAllowlist ("TELEGRAM_BOT_TOKEN=".data ++ v) = false := by
  simp only [matchesAllowlist, claudeEnvAllowlist, List.any_cons, List.any_nil,
    Bool.or_eq_false_iff]
  refine ⟨?_, ?_, ?_, ?_, ?_, ?_, ?_, ?_, ?_, ?_, ?_, ?_, ?_, ?_, ?_, ?_, ?_, ?_, trivial⟩ <;>
    exact isPrefixOf_append_eq_false_of_take_ne v (by decide)

theorem elevenlabs_key_not_allowlisted (v : Str) :
    matchesAllowlist ("ELEVENLABS_API_KEY=".data ++ v) = false := by
  simp only [matchesAllowlist, claudeEnvAllowlist, List.any_cons, List.any_nil,
    Bool.or_eq_false_iff]
  refine ⟨?_, ?_, ?_, ?_, ?_, ?_, ?_, ?_, ?_, ?_, ?_, ?_, ?_, ?_, ?_, ?_, ?_, ?_, trivial⟩ <;>
    exact isPrefixOf_append_eq_false_of_take_ne v (by decide)

theorem head_eq_of_eq_append {x a v : Str} (hx : x = a ++ v) (ha : a ≠ []) :
    x.head? = a.head? := by
  subst hx
  cases a with
  | nil => exact absurd rfl ha
  | cons c l => rfl

/-- Claim C4: the environment passed to the assistant subprocess consists of
exactly the parent entries matching the allow-list plus one synthesized `HOME`
entry (the reduced-privilege user's home under a credential, else the parent
`HOME` when it is set), and nothing else; entries for the Telegram bot token
and the ElevenLabs TTS key are never present, whatever the parent environment
holds. -/
theorem c4_subprocess_env_allowlist (b : Bool) (environ : List Str) :
    (∀ x, x ∈ buildClaudeEnv b environ ↔
      ((x ∈ environ ∧ matchesAllowlist x = true) ∨
       (b = true ∧ x = "HOME=".data ++ claudeHomeOf environ) ∨
       (b = false ∧ getenvStr environ "HOME".data ≠ [] ∧
         x = "HOME=".data ++ getenvStr environ "HOME".data))) ∧
    (∀ v, ("TELEGRAM_BOT_TOKEN=".data ++ v) ∉ buildClaudeEnv b environ ∧
          ("ELEVENLABS_API_KEY=".data ++ v) ∉ buildClaudeEnv b environ) := by
  have hchar : ∀ x, x ∈ buildClaudeEnv b environ ↔
      ((x ∈ environ ∧ matchesAllowlist x = true) ∨
       (b = true ∧ x = "HOME=".data ++ claudeHomeOf environ) ∨
       (b = false ∧ getenvStr environ "HOME".data ≠ [] ∧
         x = "HOME=".data ++ getenvStr environ "HOME".data)) := by
    intro x
    unfold buildClaudeEnv
    cases b with
    | true =>
      simp [List.mem_append, List.mem_filter]
    | false =>
      by_cases hh : getenvStr environ "HOME".data = [] <;>
        simp [hh, List.mem_append, List.mem_filter]
  refine ⟨hchar, ?_⟩
  intro v
  constructor
  · intro hmem
    rcases (hchar _).mp hmem with ⟨_, hmatch⟩ | ⟨_, hx⟩ | ⟨_, _, hx⟩
    · rw [telegram_token_not_allowlisted v] at hmatch
      exact Bool.false_ne_true hmatch
    · have h1 := head_eq_of_eq_append hx (by decide)
      have h2 := head_eq_of_eq_append (rfl :
        ("TELEGRAM_BOT_TOKEN=".data ++ v) = "TELEGRAM_BOT_TOKEN=".data ++ v) (by decide)
      rw [h2] at h1
      exact absurd h1 (by decide)
    · have h1 := head_eq_of_eq_append hx (by decide)
      have h2 := head_eq_of_eq_append (rfl :
        ("TELEGRAM_BOT_TOKEN=".data ++ v) = "TELEGRAM_BOT_TOKEN=".data ++ v) (by decide)
      rw [h2] at h1
      exact absurd h1 (by decide)
  · intro hmem
    rcases (hchar _).mp hmem with ⟨_, hmatch⟩ | ⟨_, hx⟩ | ⟨_, _, hx⟩
    · rw [elevenlabs_key_not_allowlisted v] at hmatch
      exact Bool.false_ne_true hmatch
    · have h1 := head_eq_of_eq_append hx (by decide)
      have h2 := head_eq_of_eq_append (rfl :
        ("ELEVENLABS_API_KEY=".data ++ v) = "ELEVENLABS_API_KEY=".data ++ v) (by decide)
      rw [h2] at h1
      exact absurd h1 (by decide)
    · have h1 := head_eq_of_eq_append hx (by decide)
      have h2 := head_eq_of_eq_append (rfl :
        ("ELEVENLABS_API_KEY=".data ++ v) = "ELEVENLABS_API_KEY=".data ++ v) (by decide)
      rw [h2] at h1
      exact absurd h1 (by decide)

theorem extractSendLoop_fst (home : Str) (ls : List Str) :
    (extractSendLoop home ls).1 =
      ls.filter (fun l => (sendDirectiveCapture l).isNone) := by
  induction ls with
  | nil => rfl
  | cons l ls ih =>
    cases h : sendDirectiveCapture l <;>
      simp [extractSendLoop, h, List.filter_cons, ih]

theorem extractSendLoop_snd (home : Str) (ls : List Str) :
    (extractSendLoop home ls).2 =
      ls.filterMap (fun l => (sendDirectiveCapture l).map
        (fun c => tildeExpand home (goTrimSpace c))) := by
  induction ls with
  | nil => rfl
  | cons l ls ih =>
    cases h : sendDirectiveCapture l <;>
      simp [extractSendLoop, h, List.filterMap_cons, ih]

theorem mem_appendUnique (slice : List Str) (item x : Str) :
    x ∈ appendUnique slice item ↔ x ∈ slice ∨ x = item := by
  unfold appendUnique
  by_cases h : item ∈ slice <;> simp [h]
  intro hx
  rw [hx]
  exact h

theorem mem_foldl_appendUnique (ls init : List Str) (x : Str) :
    x ∈ ls.foldl appendUnique init ↔ x ∈ init ∨ x ∈ ls := by
  induction ls generalizing init with
  | nil => simp
  | cons l ls ih =>
    rw [List.foldl_cons, ih, mem_appendUnique]
    simp
    tauto

theorem mem_dedupList (l : List Str) (x : Str) : x ∈ dedupList l ↔ x ∈ l := by
  unfold dedupList
  rw [mem_foldl_appendUnique]
  simp

/-- Claim C1: directive extraction removes every `SEND:` line from the text
sent to the chat (the cleaned text is exactly the non-matching lines), and
the delivered file set is exactly the captures of the matching lines,
trimmed, `~/`-expanded, resolved to absolute paths and restricted by the
path-safety predicate (allowed roots without near-miss prefixes, no denied
substrings); unsafe paths such as `/etc/shadow` are silently dropped.  The
safety predicate is spec-modelled (`isSafeSendPath` is missing from src;
its table test is reproduced as the final conjunct). -/
theorem c1_send_directive_delivery (home cwd text : Str) :
    ((extractSendDirectives home text).1 =
      joinLines ((splitLines text).filter
        (fun l => (sendDirectiveCapture l).isNone))) ∧
    (∀ p, p ∈ deliveredSendFiles home cwd text ↔
      ∃ l ∈ splitLines text, ∃ c, sendDirectiveCapture l = some c ∧
        p = goAbs cwd (tildeExpand home (goTrimSpace c)) ∧
        isSafeSendPath p = true) ∧
    (extractSendDirectives "/root".data
        "here it is\nSEND: /etc/shadow\nSEND: /tmp/out.png".data).1 =
      "here it is".data ∧
    deliveredSendFiles "/root".data "/home/pai".data
        "here it is\nSEND: /etc/shadow\nSEND: /tmp/out.png".data =
      ["/tmp/out.png".data] ∧
    (isSafeSendPath "/mnt/pai-data/projects/repo/file.txt".data = true ∧
     isSafeSendPath "/mnt/pai-data/memory/notes.md".data = true ∧
     isSafeSendPath "/tmp/output.png".data = true ∧
     isSafeSendPath "/home/pai/document.pdf".data = true ∧
     isSafeSendPath "/etc/pai/secrets.env".data = false ∧
     isSafeSendPath "/etc/shadow".data = false ∧
     isSafeSendPath "/root/.ssh/id_rsa".data = false ∧
     isSafeSendPath "/usr/local/bin/pai-bridge".data = false ∧
     isSafeSendPath "/mnt/pai-data/projects/secrets.env".data = false ∧
     isSafeSendPath "/home/pai/.ssh/id_rsa".data = false ∧
     isSafeSendPath "/mnt/pai-data/projects/.env".data = false ∧
     isSafeSendPath "/home/pai/credentials.json".data = false ∧
     isSafeSendPath "/tmp/token.txt".data = false ∧
     isSafeSendPath "/mnt/pai-data/projects/server.key".data = false ∧
     isSafeSendPath "/tmp/cert.pem".data = false ∧
     isSafeSendPath "/mnt/pai-data/projects".data = true ∧
     isSafeSendPath "/mnt/pai-data/project-other/file.txt".data = false ∧
     isSafeSendPath [] = false) := by
  refine ⟨?_, ?_, by decide, by decide, by decide⟩
  · simp only [extractSendDirectives]
    rw [extractSendLoop_fst]
  · intro p
    simp only [deliveredSendFiles, extractSendDirectives]
    rw [mem_dedupList, List.mem_filter, List.mem_map, extractSendLoop_snd]
    simp only [List.mem_filterMap, Option.map_eq_some']
    constructor
    · rintro ⟨⟨q, ⟨l, hl, c, hc, hq⟩, hpq⟩, hsafe⟩
      exact ⟨l, hl, c, hc, by rw [← hpq, ← hq], hsafe⟩
    · rintro ⟨l, hl, c, hc, hp, hsafe⟩
      exact ⟨⟨tildeExpand home (goTrimSpace c), ⟨l, hl, c, hc, rfl⟩, hp.symm⟩, hsafe⟩

/-- Claim C9: a voice utterance is recognized on any line matching
`^\s*(?:VOICE|🗣️\s+\w+)\s*:\s*(.+)$` — both the `VOICE:` form and the
`🗣️ Name:` form trigger it — only the first match in the response is
recognized, and matching lines are stripped from the text delivered to the
chat.  The concrete conjuncts reproduce vectors of `TestExtractVoiceDirective`
(both forms, first-match-only, leading whitespace, and a non-anchored
`VOICE:` that must not match). -/
theorem c9_voice_directive (text : Str) :
    ((extractVoiceDirective text).1 =
      joinLines ((splitLines text).filter
        (fun l => (voiceDirectiveCapture l).isNone))) ∧
    (∀ c rest, (splitLines text).filterMap voiceDirectiveCapture = c :: rest →
      (extractVoiceDirective text).2 = goTrimSpace c) ∧
    extractVoiceDirective "Some text\nVOICE: Hello there!\nMore text".data =
      ("Some text\nMore text".data, "Hello there!".data) ∧
    extractVoiceDirective "Some text\n🗣️ PAI: Deploy complete.\nMore text".data =
      ("Some text\nMore text".data, "Deploy complete.".data) ∧
    extractVoiceDirective "VOICE: First line\nVOICE: Second line".data =
      ([], "First line".data) ∧
    extractVoiceDirective "  🗣️ Kai: Custom name works.".data =
      ([], "Custom name works.".data) ∧
    extractVoiceDirective "The VOICE: directive is cool".data =
      ("The VOICE: directive is cool".data, []) := by
  refine ⟨rfl, ?_, by decide, by decide, by decide, by decide, by decide⟩
  intro c rest h
  simp only [extractVoiceDirective]
  rw [h]
  rfl

theorem enqueueAll_of_le (ms : List PendingMessage) (q : List PendingMessage)
    (h : q.length + ms.length ≤ maxPendingMessages) : enqueueAll q ms = q ++ ms := by
  induction ms generalizing q with
  | nil => simp [enqueueAll]
  | cons m ms ih =>
    have hlt : ¬ maxPendingMessages ≤ q.length := by
      simp only [List.length_cons] at h
      omega
    have step : (enqueuePending q m).1 = q ++ [m] := by
      simp [enqueuePending, hlt]
    calc enqueueAll q (m :: ms) = enqueueAll (q ++ [m]) ms := by
          simp [enqueueAll, step]
      _ = (q ++ [m]) ++ ms := by
          apply ih
          simp only [List.length_append, List.length_cons, List.length_nil] at h ⊢
          omega
      _ = q ++ m :: ms := by simp

/-- Claim C3: for a message arriving while the session is busy, enqueue
appends it and returns the new depth when the queue holds fewer than 20
entries, fails with queue-full without modifying the queue when it holds at
least 20, and after 20 accepted enqueues the 21st is rejected with the depth
still exactly 20. -/
theorem c3_followup_queue_cap (q : List PendingMessage) (m : PendingMessage) :
    (q.length < maxPendingMessages →
      enqueuePending q m = (q ++ [m], .queued (q.length + 1))) ∧
    (maxPendingMessages ≤ q.length → enqueuePending q m = (q, .queueFull)) ∧
    (∀ ms : List PendingMessage, ms.length = maxPendingMessages →
      enqueueAll [] ms = ms ∧
      enqueuePending (enqueueAll [] ms) m = (ms, .queueFull) ∧
      (enqueueAll [] ms).length = maxPendingMessages) := by
  refine ⟨?_, ?_, ?_⟩
  · intro h
    simp [enqueuePending, Nat.not_le.mpr h]
  · intro h
    simp [enqueuePending, h]
  · intro ms hms
    have hall : enqueueAll [] ms = ms := by
      have := enqueueAll_of_le ms [] (by simp [hms])
      simpa using this
    refine ⟨hall, ?_, by rw [hall, hms]⟩
    rw [hall]
    simp [enqueuePending, hms]

theorem c3_followup_queue_cap_witness :
    maxPendingMessages ≤ (List.replicate 20 pendingMessageEx).length ∧
    enqueuePending (List.replicate 20 pendingMessageEx) pendingMessageEx =
      (List.replicate 20 pendingMessageEx, .queueFull) :=
  ⟨by decide,
   (c3_followup_queue_cap (List.replicate 20 pendingMessageEx)
      pendingMessageEx).2.1 (by decide)⟩

theorem unmarshal_marshal (s : Session) :
    unmarshalSession (marshalSession s) = s := rfl

theorem find?_append_none {α : Type} {p : α → Bool} {l1 : List α} (l2 : List α)
    (h : l1.find? p = none) : (l1 ++ l2).find? p = l2.find? p := by
  induction l1 with
  | nil => rfl
  | cons a l ih =>
    cases hpa : p a with
    | true =>
      rw [List.find?_cons_of_pos _ hpa] at h
      exact absurd h (by simp)
    | false =>
      rw [List.find?_cons_of_neg _ (by simp [hpa])] at h
      rw [List.cons_append, List.find?_cons_of_neg _ (by simp [hpa])]
      exact ih h

theorem find?_append_singleton_neg {α : Type} {p : α → Bool} {a : α}
    (l : List α) (h : p a = false) : (l ++ [a]).find? p = l.find? p := by
  induction l with
  | nil => simp [List.find?, h]
  | cons b l ih =>
    cases hpb : p b with
    | true =>
      rw [List.cons_append, List.find?_cons_of_pos _ hpb,
        List.find?_cons_of_pos _ hpb]
    | false =>
      rw [List.cons_append, List.find?_cons_of_neg _ (by simp [hpb]),
        List.find?_cons_of_neg _ (by simp [hpb])]
      exact ih

theorem find?_filter_ne {m : List (Str × Session)} {k u : Str} (hne : u ≠ k) :
    (m.filter (fun e => !(e.1 == k))).find? (fun e => e.1 == u) =
      m.find? (fun e => e.1 == u) := by
  induction m with
  | nil => rfl
  | cons e m ih =>
    by_cases hk : e.1 = k
    · have hpu : (e.1 == u) = false := by
        simp only [beq_eq_false_iff_ne, ne_eq, hk]
        exact fun h => hne h.symm
      rw [List.filter_cons_of_neg (by simp [beq_iff_eq, hk])]
      rw [List.find?_cons_of_neg _ (by simp [hpu])]
      exact ih
    · rw [List.filter_cons_of_pos (by simp [beq_iff_eq, hk])]
      by_cases hu : e.1 = u
      · rw [List.find?_cons_of_pos _ (by simp [beq_iff_eq, hu]),
          List.find?_cons_of_pos _ (by simp [beq_iff_eq, hu])]
      · rw [List.find?_cons_of_neg _ (by simp [beq_iff_eq, hu]),
          List.find?_cons_of_neg _ (by simp [beq_iff_eq, hu])]
        exact ih

theorem mapLookup_insert (m : List (Str × Session)) (k : Str) (v : Session)
    (u : Str) :
    mapLookup (mapInsert m k v) u = if u = k then some v else mapLookup m u := by
  unfold mapLookup mapInsert
  by_cases hu : u = k
  · subst hu
    have hnone : (m.filter (fun e => !(e.1 == u))).find? (fun e => e.1 == u) = none := by
      rw [List.find?_eq_none]
      intro x hx
      have h2 := (List.mem_filter.mp hx).2
      simp only [Bool.not_eq_eq_eq_not, Bool.not_true] at h2
      simp [h2]
    rw [find?_append_none _ hnone]
    simp [List.find?]
  · rw [if_neg hu]
    have hpa : (((k, v) : Str × Session).1 == u) = false := by
      simp only [beq_eq_false_iff_ne, ne_eq]
      exact fun h => hu h.symm
    rw [find?_append_singleton_neg (p := fun e => e.1 == u)
      (a := ((k, v) : Str × Session)) _ hpa, find?_filter_ne hu]

theorem lookup_fold_untouched (L : List Session) (m : List (Str × Session))
    (u : Str) (h : ∀ t ∈ L, t.userID ≠ u) :
    mapLookup (L.foldl (fun m s => mapInsert m s.userID (setActiveStatus s)) m) u
      = mapLookup m u := by
  induction L generalizing m with
  | nil => rfl
  | cons s L ih =>
    rw [List.foldl_cons, ih _ (fun t ht => h t (List.mem_cons_of_mem _ ht)),
      mapLookup_insert,
      if_neg (fun he : u = s.userID => h s (List.mem_cons_self _ _) he.symm)]

theorem lookup_load_aux (L : List Session) (m : List (Str × Session)) (u : Str)
    (hnd : (L.map Session.userID).Nodup) :
    mapLookup (L.foldl (fun m s => mapInsert m s.userID (setActiveStatus s)) m) u
      = match L.find? (fun s => s.userID == u) with
        | some s => some (setActiveStatus s)
        | none => mapLookup m u := by
  induction L generalizing m with
  | nil => simp
  | cons s L ih =>
    rw [List.map_cons, List.nodup_cons] at hnd
    rw [List.foldl_cons]
    by_cases h : s.userID = u
    · rw [List.find?_cons_of_pos _ (by simp [beq_iff_eq, h])]
      have hall : ∀ t ∈ L, t.userID ≠ u := by
        intro t ht he
        exact hnd.1 (List.mem_map.mpr ⟨t, ht, by rw [he, h]⟩)
      rw [lookup_fold_untouched L _ u hall, mapLookup_insert, if_pos h.symm]
    · rw [List.find?_cons_of_neg _ (by simp [beq_iff_eq, h])]
      rw [ih _ hnd.2]
      cases hf : L.find? (fun s => s.userID == u) with
      | some t => simp
      | none =>
        simp only
        rw [mapLookup_insert, if_neg (fun he : u = s.userID => h he.symm)]

/-- Claim C6: writing the snapshot and reloading it yields, keyed by user id,
the same sessions in all persistent fields except that every loaded session's
status is `active` regardless of the status that was written. -/
theorem c6_snapshot_roundtrip (sessions : List Session)
    (hnd : (sessions.map Session.userID).Nodup) (u : Str) :
    mapLookup (loadFromDisk (saveToDisk sessions)) u =
      (sessions.find? (fun s => s.userID == u)).map setActiveStatus := by
  unfold loadFromDisk saveToDisk
  rw [List.foldl_map]
  have heq : (fun (m : List (Str × Session)) (s : Session) =>
      mapInsert m (unmarshalSession (marshalSession s)).userID
        { unmarshalSession (marshalSession s) with status := activeStatus }) =
      fun m s => mapInsert m s.userID (setActiveStatus s) := by
    funext m s
    rfl
  rw [heq, lookup_load_aux sessions [] u hnd]
  cases hf : sessions.find? (fun s => s.userID == u) <;> simp [mapLookup]

theorem c6_snapshot_roundtrip_witness :
    (([sessionEx1, sessionEx2].map Session.userID).Nodup) ∧
    mapLookup (loadFromDisk (saveToDisk [sessionEx1, sessionEx2])) "u1".data =
      some (setActiveStatus sessionEx1) :=
  ⟨by decide,
   (c6_snapshot_roundtrip [sessionEx1, sessionEx2] (by decide) "u1".data).trans
     (by decide)⟩

/-- Claim C7: a non-busy session is cleaned by one sweeper pass iff its idle
time strictly exceeds `timeout_minutes × 60000` ms, or the daily-reset window
is active (`reset_hour ≥ 0` and equal to the current hour in the resolved
timezone) and its idle time strictly exceeds five minutes; busy sessions are
never cleaned. -/
theorem c7_sweeper_criterion (cfg : SessionsConfig) (now : Int)
    (currentHour : Nat) (sessions : List Session) (s : Session)
    (hs : s ∈ sessions) :
    (s ∉ (cleanStale cfg now currentHour sessions).remaining ↔
      (s.status ≠ busyStatus ∧
        (cfg.timeoutMinutes * 60000 < now - s.lastActivityAt ∨
          ((0 ≤ cfg.resetHour ∧ (currentHour : Int) = cfg.resetHour) ∧
            5 * 60000 < now - s.lastActivityAt)))) ∧
    (s.status = busyStatus →
      s ∈ (cleanStale cfg now currentHour sessions).remaining) := by
  have hdecode : shouldCleanStale cfg now currentHour s = true ↔
      (s.status ≠ busyStatus ∧
        (cfg.timeoutMinutes * 60000 < now - s.lastActivityAt ∨
          ((0 ≤ cfg.resetHour ∧ (currentHour : Int) = cfg.resetHour) ∧
            5 * 60000 < now - s.lastActivityAt))) := by
    unfold shouldCleanStale dailyResetActive
    by_cases hb : s.status = busyStatus
    · simp [hb]
    · rw [if_neg (by simp [beq_iff_eq, hb])]
      simp [hb, and_assoc]
  have hmem : s ∉ (cleanStale cfg now currentHour sessions).remaining ↔
      shouldCleanStale cfg now currentHour s = true := by
    simp only [cleanStale, List.mem_filter]
    constructor
    · intro h
      by_contra hng
      exact h ⟨hs, by simp [Bool.eq_false_iff.mpr hng]⟩
    · intro h hcontra
      rw [h] at hcontra
      exact absurd hcontra.2 (by simp)
  refine ⟨hmem.trans hdecode, ?_⟩
  intro hb
  simp only [cleanStale, List.mem_filter]
  exact ⟨hs, by simp [shouldCleanStale, beq_iff_eq, hb]⟩

theorem c7_sweeper_criterion_witness :
    sessionIdle6 ∈ [sessionIdle6, sessionIdle4] ∧
    sessionIdle6 ∉ (cleanStale sweepCfgEx 10000000 4
      [sessionIdle6, sessionIdle4]).remaining ∧
    sessionIdle4 ∈ (cleanStale sweepCfgEx 10000000 4
      [sessionIdle6, sessionIdle4]).remaining := by
  refine ⟨by decide, ?_, ?_⟩
  · exact (c7_sweeper_criterion sweepCfgEx 10000000 4 _ sessionIdle6
      (by decide)).1.mpr (by decide)
  · by_contra h
    exact absurd ((c7_sweeper_criterion sweepCfgEx 10000000 4 _ sessionIdle4
      (by decide)).1.mp h) (by decide)

/-- Claim C8: on every destruction path — user-initiated kill, stale-sweeper
cleaning, shutdown flush-all — a summary flush for the session is produced
iff its `message_count` is positive; a session with zero messages is never
flushed.  `killSession`'s effect list is its synchronous pre-return trace, so
the flush it contains happens before kill returns. -/
theorem c8_flush_iff_messages :
    (∀ (sessions : List Session) (u : Str) (s : Session),
      sessions.find? (fun t => t.userID == u) = some s →
        ((killSession sessions u).2.1 =
          Effect.saveToDisk ::
            (if 0 < s.messageCount then [Effect.flush (mkFlushCall s)] else []) ∧
        (Effect.flush (mkFlushCall s) ∈ (killSession sessions u).2.1 ↔
          0 < s.messageCount))) ∧
    (∀ (cfg : SessionsConfig) (now : Int) (currentHour : Nat)
      (sessions : List Session) (s : Session), s ∈ sessions →
        shouldCleanStale cfg now currentHour s = true →
        (0 < s.messageCount →
          mkFlushCall s ∈ (cleanStale cfg now currentHour sessions).toFlush)) ∧
    (∀ (cfg : SessionsConfig) (now : Int) (currentHour : Nat)
      (sessions : List Session) (c : FlushCall),
        c ∈ (cleanStale cfg now currentHour sessions).toFlush →
        ∃ s ∈ sessions, shouldCleanStale cfg now currentHour s = true ∧
          0 < s.messageCount ∧ c = mkFlushCall s) ∧
    (∀ (sessions : List Session) (s : Session), s ∈ sessions →
      0 < s.messageCount → mkFlushCall s ∈ flushAll sessions) ∧
    (∀ (sessions : List Session) (c : FlushCall), c ∈ flushAll sessions →
      ∃ s ∈ sessions, 0 < s.messageCount ∧ c = mkFlushCall s) := by
  refine ⟨?_, ?_, ?_, ?_, ?_⟩
  · intro sessions u s h
    unfold killSession
    rw [h]
    refine ⟨rfl, ?_⟩
    by_cases hc : 0 < s.messageCount
    · simp [hc]
    · simp [hc]
  · intro cfg now currentHour sessions s hs hclean hcount
    simp only [cleanStale, List.mem_map, List.mem_filter]
    exact ⟨s, ⟨⟨hs, hclean⟩, by simp [hcount]⟩, rfl⟩
  · intro cfg now currentHour sessions c hc
    simp only [cleanStale, List.mem_map, List.mem_filter] at hc
    obtain ⟨s, ⟨⟨hs, hclean⟩, hcount⟩, hcall⟩ := hc
    exact ⟨s, hs, hclean, by simpa using hcount, hcall.symm⟩
  · intro sessions s hs hcount
    simp only [flushAll, List.mem_map, List.mem_filter]
    exact ⟨s, ⟨hs, by simp [hcount]⟩, rfl⟩
  · intro sessions c hc
    simp only [flushAll, List.mem_map, List.mem_filter] at hc
    obtain ⟨s, ⟨hs, hcount⟩, hcall⟩ := hc
    exact ⟨s, hs, by simpa using hcount, hcall.symm⟩

theorem c8_flush_iff_messages_witness :
    ([sessionEx1, sessionEx2].find? (fun t => t.userID == "u1".data) =
      some sessionEx1) ∧
    (Effect.flush (mkFlushCall sessionEx1) ∈
      (killSession [sessionEx1, sessionEx2] "u1".data).2.1) ∧
    ([sessionEx1, sessionEx2].find? (fun t => t.userID == "u2".data) =
      some sessionEx2) ∧
    ¬ (Effect.flush (mkFlushCall sessionEx2) ∈
      (killSession [sessionEx1, sessionEx2] "u2".data).2.1) := by
  refine ⟨by decide, ?_, by decide, ?_⟩
  · exact (c8_flush_iff_messages.1 [sessionEx1, sessionEx2] "u1".data
      sessionEx1 (by decide)).2.mpr (by decide)
  · intro h
    exact absurd ((c8_flush_iff_messages.1 [sessionEx1, sessionEx2] "u2".data
      sessionEx2 (by decide)).2.mp h) (by decide)

theorem updateSession_clear_claude (l : List Session) (u : Str) (t : Session)
    (ht : t ∈ updateSession l u (fun x => { x with claudeSessionID := [] }))
    (htu : t.userID = u) : t.claudeSessionID = [] := by
  obtain ⟨x, hx, hxt⟩ := List.mem_map.mp ht
  by_cases hxu : (x.userID == u) = true
  · rw [if_pos hxu] at hxt
    rw [← hxt]
  · rw [if_neg (by simp [hxu])] at hxt
    subst hxt
    exact absurd (beq_iff_eq.mpr htu) hxu

/-- Claim C10: in binary-attachment (stream-JSON stdin) mode, the text content
part written on the subprocess's stdin is the composed message text, except
that when that text is empty it is replaced by "What is in this image?" for an
image and "Please analyze this document." for a document; the JSON object
never carries an empty text part. -/
theorem c10_stdin_default_prompt (messageText : Str) (a : Attachment)
    (h : a.type = imageType ∨ a.type = documentType) :
    buildStdinParts messageText a =
      [ContentPart.media a.type a.mimeType a.base64,
       ContentPart.textPart
         (if messageText = [] then
            (if a.type = imageType then "What is in this image?".data
             else "Please analyze this document.".data)
          else messageText)] ∧
    (∀ t, ContentPart.textPart t ∈ buildStdinParts messageText a → t ≠ []) := by
  have hparts : buildStdinParts messageText a =
      [ContentPart.media a.type a.mimeType a.base64,
       ContentPart.textPart
         (if messageText = [] then
            (if a.type = imageType then "What is in this image?".data
             else "Please analyze this document.".data)
          else messageText)] := by
    rcases h with h | h
    · unfold buildStdinParts
      rw [h, if_pos rfl]
      rfl
    · unfold buildStdinParts
      rw [h, if_neg (by decide : ¬ (documentType = imageType)), if_pos rfl]
      rfl
  refine ⟨hparts, ?_⟩
  intro t ht
  rw [hparts] at ht
  simp only [List.mem_cons, List.not_mem_nil, or_false] at ht
  rcases ht with ht | ht
  · exact absurd ht (by simp)
  · have ht2 := ContentPart.textPart.inj ht
    subst ht2
    by_cases hm : messageText = []
    · rw [if_pos hm]
      rcases h with h | h
      · rw [h, if_pos rfl]
        decide
      · rw [h, if_neg (by decide : ¬ (documentType = imageType))]
        decide
    · rw [if_neg hm]
      exact hm

theorem c10_stdin_default_prompt_witness :
    (promptAttachmentEx.type = imageType ∨
      promptAttachmentEx.type = documentType) ∧
    buildStdinParts [] promptAttachmentEx =
      [ContentPart.media imageType "image/png".data "QUFBQQ==".data,
       ContentPart.textPart "What is in this image?".data] :=
  ⟨Or.inl rfl,
   ((c10_stdin_default_prompt [] promptAttachmentEx (Or.inl rfl)).1).trans
     (by decide)⟩

/-- Claim C5: interpretation of a non-zero subprocess exit.  If stderr carries
the cannot-find-session signal and a resume token was in use, the session's
conversation id is cleared, a snapshot is written and `session-expired` is
returned; otherwise a non-empty stderr body is returned as the error;
otherwise the aggregated text is returned with no error. -/
theorem c5_exit_interpretation (rc dn : Str) (now : Int)
    (sessions : List Session) (s : Session) (userID text : Str)
    (att : Option Attachment) (w : TurnWorld)
    (hin : useStreamJSONOf att = true → w.stdinPipeOk = true)
    (hout : w.stdoutPipeOk = true) (herr : w.stderrPipeOk = true)
    (hstart : w.startOk = true) :
    (w.exitNonZero = true → s.claudeSessionID ≠ [] →
      containsSub w.stderrText cannotFindSessionSig = true →
      (runTurn rc dn now sessions s userID text att w).result =
        .error .sessionExpired ∧
      (∀ t ∈ (runTurn rc dn now sessions s userID text att w).sessions,
        t.userID = userID → t.claudeSessionID = []) ∧
      Effect.saveToDisk ∈ (runTurn rc dn now sessions s userID text att w).effects) ∧
    (w.exitNonZero = true →
      ¬ (s.claudeSessionID ≠ [] ∧
          containsSub w.stderrText cannotFindSessionSig = true) →
      w.stderrText ≠ [] →
      (runTurn rc dn now sessions s userID text att w).result =
        .error (.claudeExited (goTrimSpace w.stderrText))) ∧
    (w.exitNonZero = true → w.stderrText = [] →
      (runTurn rc dn now sessions s userID text att w).result =
        .ok ⟨(processEvents w.events s.claudeSessionID).resp,
             (processEvents w.events s.claudeSessionID).files⟩) := by
  have h1 : (useStreamJSONOf att && !w.stdinPipeOk) = false := by
    cases hu : useStreamJSONOf att
    · rfl
    · rw [hin hu]
      rfl
  refine ⟨?_, ?_, ?_⟩
  · intro hexit hres hcontains
    have hres' : (s.claudeSessionID == []) = false := beq_eq_false_iff_ne.mpr hres
    refine ⟨?_, ?_, ?_⟩
    · simp [runTurn, h1, hout, herr, hstart, hexit, hres', hcontains]
    · intro t ht htu
      simp only [runTurn, h1, hout, herr, hstart, hexit, hres', hcontains,
        Bool.not_true, Bool.not_false, Bool.and_self, Bool.false_and,
        Bool.and_false, if_false, if_true, ite_true, ite_false] at ht
      simp only [Bool.false_eq_true, if_false] at ht
      exact updateSession_clear_claude _ _ t ht htu
    · simp [runTurn, h1, hout, herr, hstart, hexit, hres', hcontains]
  · intro hexit hnot hne
    by_cases hres : s.claudeSessionID = []
    · have hres' : (s.claudeSessionID == []) = true := beq_iff_eq.mpr hres
      simp [runTurn, h1, hout, herr, hstart, hexit, hres', hne]
    · have hcontains : containsSub w.stderrText cannotFindSessionSig = false := by
        cases hc : containsSub w.stderrText cannotFindSessionSig
        · rfl
        · exact absurd ⟨hres, hc⟩ hnot
      have hres' : (s.claudeSessionID == []) = false := beq_eq_false_iff_ne.mpr hres
      simp [runTurn, h1, hout, herr, hstart, hexit, hres', hcontains, hne]
  · intro hexit hempty
    have hcontains : containsSub w.stderrText cannotFindSessionSig = false := by
      rw [hempty]
      decide
    by_cases hres : s.claudeSessionID = []
    · have hres' : (s.claudeSessionID == []) = true := beq_iff_eq.mpr hres
      simp [runTurn, h1, hout, herr, hstart, hexit, hres', hcontains, hempty,
        finishTurn]
    · have hres' : (s.claudeSessionID == []) = false := beq_eq_false_iff_ne.mpr hres
      simp [runTurn, h1, hout, herr, hstart, hexit, hres', hcontains, hempty,
        finishTurn, (by decide : containsSub ([] : Str) cannotFindSessionSig = false)]

theorem c5_exit_interpretation_witness :
    containsSub expiredWorld.stderrText cannotFindSessionSig = true ∧
    (runTurn [] [] 0 [resumedSession] resumedSession "u5".data "go on".data
      none expiredWorld).result = .error .sessionExpired ∧
    Effect.saveToDisk ∈ (runTurn [] [] 0 [resumedSession] resumedSession
      "u5".data "go on".data none expiredWorld).effects := by
  have h := (c5_exit_interpretation [] [] 0 [resumedSession] resumedSession
    "u5".data "go on".data none expiredWorld (fun _ => rfl) rfl rfl rfl).1
    rfl (by decide) (by decide)
  exact ⟨by decide, h.1, h.2.2⟩

/-- Claim C2 (code bug): when stdin-pipe creation fails during a turn with a
binary attachment, `SendMessage` returns the pipe error with the session
still in status `busy` — the busy→active reset at the end of the turn is
skipped on the early-return paths (stdin/stdout/stderr pipe setup, subprocess
start), so the status stays `busy` after the call returns, contradicting the
claimed invariant.  The same shape applies to the stdout/stderr-pipe and
start failures. -/
theorem c2_status_busy_leak :
    (sendMessage sweepCfgEx [] [] "new-id".data 5000 [stuckSession] "u9".data
      "hi".data (some stuckAttachment) stuckWorld).result =
      .error .stdinPipeFailed ∧
    (sendMessage sweepCfgEx [] [] "new-id".data 5000 [stuckSession] "u9".data
      "hi".data (some stuckAttachment) stuckWorld).sessions.map Session.status =
      [busyStatus] ∧
    busyStatus ≠ activeStatus :=
  ⟨rfl, rfl, by decide⟩

end PaiDo
